import Mathlib

/-!
Shallow embedding of the local-to-S3 synchronizer in upload_to_s3.py.

The embedding keeps the source structure:
* glob matching (fnmatch) and the path predicate should_include (lines 39-60);
* collect_files applying the filter and the size ceiling (lines 63-83);
* the per-file processing loop of main (lines 176-208), including the
  skip-existing decision (lines 184-191), the upload/verify path
  (lines 193-203) and the error accounting (lines 204-208);
* the run summary, manifest close and exit code (lines 210-219).

Filesystem traversal, hashing and network I/O are modelled by oracles: the
walk output is a list of FileEntry values (relative path, byte size and the
streaming SHA-256 hex fingerprint of line 181), and each file carries a
FileEnv giving the outcome of every external call its processing performs
(head_object for the skip check, upload_file, head_object for verify, and
whether lines 177-182 - which run before the try block - raise OSError).
-/

namespace S3Sync

/-- Splits a character list at every slash, the embedding of the segment
view Path(rel_path).parts used at line 47 (empty and dot segments are
dropped afterwards, as pathlib drops them for relative paths). -/
def pathSegs : List Char → List (List Char)
  | [] => [[]]
  | c :: rest =>
    match pathSegs rest with
    | [] => [[]]
    | seg :: segs => if c = '/' then [] :: seg :: segs else (c :: seg) :: segs

/-- True when a path segment begins with the hidden-file marker, the
embedding of p.startswith(".") at line 48. -/
def startsDot : List Char → Bool
  | '.' :: _ => true
  | _ => false

/-- Hidden-path test of lines 47-48: some segment of the relative path
starts with a dot. -/
def hiddenPath (rel : String) : Bool :=
  ((pathSegs rel.data).filter (fun seg => seg ≠ [] && seg ≠ ['.'])).any startsDot

/-- Membership of a character in the body of a glob bracket expression,
with ranges a-b taken pairwise left to right as fnmatch.translate does;
a hyphen without a right endpoint is literal. -/
def bracketMember : List Char → Char → Bool
  | a :: '-' :: b :: rest, c =>
    (decide (a ≤ c) && decide (c ≤ b)) || bracketMember rest c
  | a :: rest, c => (a == c) || bracketMember rest c
  | [], _ => false

/-- Scans for the closing bracket of a glob set, returning the body seen so
far and the rest of the pattern. -/
def scanClose : List Char → Option (List Char × List Char)
  | [] => none
  | ']' :: rest => some ([], rest)
  | c :: rest =>
    match scanClose rest with
    | none => none
    | some (body, rem) => some (c :: body, rem)

/-- Parses a bracket expression from the characters after the opening
bracket: an optional leading bang negates, a closing bracket placed first
is literal, and a set with no closing bracket at all fails (the opening
bracket is then treated as a literal character), mirroring
fnmatch.translate. -/
def splitBracket (l : List Char) : Option (Bool × List Char × List Char) :=
  match l with
  | '!' :: t =>
    match t with
    | ']' :: u =>
      match scanClose u with
      | none => none
      | some (body, rem) => some (true, ']' :: body, rem)
    | _ =>
      match scanClose t with
      | none => none
      | some (body, rem) => some (true, body, rem)
  | ']' :: t =>
    match scanClose t with
    | none => none
    | some (body, rem) => some (false, ']' :: body, rem)
  | _ =>
    match scanClose l with
    | none => none
    | some (body, rem) => some (false, body, rem)

/-- Fuel-indexed glob matcher with fnmatch semantics: a star matches any
character sequence including slashes, a question mark any single
character, bracket sets as parsed by splitBracket, and every other
character literally; the whole name must be consumed. Each step consumes
at least one character of the name or of the pattern, so fuel equal to
the sum of both lengths plus one always suffices. -/
def globMatchF : Nat → List Char → List Char → Bool
  | 0, _, _ => false
  | _ + 1, [], [] => true
  | fuel + 1, [], p :: ps =>
    if p = '*' then globMatchF fuel [] ps else false
  | _ + 1, _ :: _, [] => false
  | fuel + 1, c :: cs, p :: ps =>
    if p = '*' then globMatchF fuel (c :: cs) ps || globMatchF fuel cs (p :: ps)
    else if p = '?' then globMatchF fuel cs ps
    else if p = '[' then
      match splitBracket ps with
      | none => (c == '[') && globMatchF fuel cs ps
      | some (neg, body, rem) =>
        (bracketMember body c != neg) && globMatchF fuel cs rem
    else (c == p) && globMatchF fuel cs ps

/-- Embedding of fnmatch.fnmatch(name, pat) on a case-sensitive
filesystem: full glob match of the name against the pattern. -/
def fnmatchB (name pat : String) : Bool :=
  globMatchF (name.length + pat.length + 1) name.data pat.data

/-- Embedding of should_include (lines 39-60): hidden paths are rejected
unless the explicit flag is set; with a non-empty include list the path
must glob-match one include pattern; a match against any exclude pattern
rejects. -/
def should_include (rel : String) (includes excludes : List String)
    (explicit : Bool) : Bool :=
  if hiddenPath rel && !explicit then false
  else if !includes.isEmpty && !(includes.any (fun pat => fnmatchB rel pat)) then
    false
  else if !excludes.isEmpty && excludes.any (fun pat => fnmatchB rel pat) then
    false
  else true

/-- The explicit flag of line 76: the include list is non-empty and the
relative path glob-matches at least one include pattern. -/
def explicitOf (rel : String) (includes : List String) : Bool :=
  !includes.isEmpty && includes.any (fun pat => fnmatchB rel pat)

/-- The whole path-based filter applied by collect_files at lines 76-78:
should_include with the explicit flag of line 76. -/
def filterIncluded (rel : String) (includes excludes : List String) : Bool :=
  should_include rel includes excludes (explicitOf rel includes)

/-- A collected local file: source-relative posix path, byte size, and the
SHA-256 hex fingerprint that line 181 computes from its content (carried
as data since the byte content itself is outside the embedding). -/
structure FileEntry where
  rel : String
  size : Nat
  sha256 : String
deriving DecidableEq, Repr

/-- The size-ceiling test of line 79: Python's truthiness makes the check
a no-op when max_bytes is None or zero, otherwise files strictly larger
than max_bytes are dropped. -/
def sizeExceeds (maxBytes : Option Int) (size : Nat) : Bool :=
  match maxBytes with
  | some mb => if mb ≠ 0 ∧ mb < (size : Int) then true else false
  | none => false

/-- Embedding of collect_files (lines 63-83) on the list of regular files
produced by the tree walk, in traversal order: line 71 turns a zero or
missing max_size_mb into no ceiling at all, and each file must pass the
path filter and the size test. The size-based exclusion only emits a
warning (line 80); collection never fails. -/
def collectFiles (entries : List FileEntry) (includes excludes : List String)
    (maxSizeMb : Option Int) : List FileEntry :=
  let maxBytes : Option Int :=
    match maxSizeMb with
    | some m => if m = 0 then none else some (m * 1024 * 1024)
    | none => none
  entries.filter fun e =>
    filterIncluded e.rel includes excludes && !sizeExceeds maxBytes e.size

/-- Remote object state as seen through head_object: absent (a definitive
not-found), or present with a content length and the optional sha256
entry of the custom metadata map. -/
inductive RemoteState
  | absent
  | present (size : Nat) (sha256 : Option String)
deriving DecidableEq, Repr

/-- The two per-file decisions of the loop. -/
inductive Decision
  | skip
  | upload
deriving DecidableEq, Repr

/-- The skip-existing decision of lines 184-191: skip exactly when the
flag is set, the object is present, the content length equals the local
size and the stored metadata fingerprint equals the computed one (a
missing metadata entry never equals the fingerprint). -/
def decideAction (size : Nat) (sha : String) (remote : RemoteState)
    (skipExisting : Bool) : Decision :=
  if skipExisting then
    match remote with
    | RemoteState.present rsize rsha =>
      if rsize = size ∧ rsha = some sha then Decision.skip else Decision.upload
    | RemoteState.absent => Decision.upload
  else Decision.upload

/-- Run configuration: the subset of the parsed arguments the loop reads.
The manifest flag records whether a manifest path was given (line 174);
manifest lines themselves are collected in the results. -/
structure Config where
  pfx : String
  skipExisting : Bool
  dryRun : Bool
  verify : Bool
  failFast : Bool
  manifest : Bool
deriving DecidableEq, Repr

/-- Outcome oracle for the external calls one file's processing makes.
checksumRaises models an OSError from stat or compute_sha256 at lines
177-182, which run before the try block of line 183 and therefore
propagate out of the loop. head1 and head2 are the head_object results
for the skip check and for verify (error is a re-raised transport
failure); uploadOk tells whether upload_file returns or raises. -/
structure FileEnv where
  checksumRaises : Bool
  head1 : Except Unit RemoteState
  uploadOk : Bool
  head2 : Except Unit RemoteState
deriving Repr

/-- Terminal per-file outcome as counted by the loop. -/
inductive Outcome
  | skipped
  | uploaded
  | errored
deriving DecidableEq, Repr

/-- What processing one file contributes to the run: its outcome, the
bytes added to bytes_uploaded, the manifest lines written, and how many
times upload_file was invoked. -/
structure FileResult where
  outcome : Outcome
  bytes : Nat
  manifest : List String
  uploadCalls : Nat
deriving DecidableEq, Repr

/-- One manifest record, format of lines 189 and 202: fingerprint, two
spaces, destination key, newline. -/
def manifestLine (sha key : String) : String :=
  sha ++ "  " ++ key ++ "\n"

/-- The manifest lines line 188-189 or 201-202 write for one file: one
record when a manifest is configured, nothing otherwise. The key is the
prefix concatenated with the relative path (line 178). -/
def manifestAppend (cfg : Config) (e : FileEntry) : List String :=
  if cfg.manifest then [manifestLine e.sha256 (cfg.pfx ++ e.rel)] else []

/-- The verification test of line 199: the re-probed object must be
present with matching content length and metadata fingerprint, else a
RuntimeError is raised. -/
def verifyOk (size : Nat) (sha : String) (remote : RemoteState) : Bool :=
  match remote with
  | RemoteState.present rsize (some rsha) => rsize == size && rsha == sha
  | _ => false

/-- The upload path of lines 193-203. In dry-run mode nothing is invoked
and the file is counted as uploaded with zero bytes. Otherwise
upload_file runs (counted as one call even when it raises); a successful
call adds the file size to bytes_uploaded before any verification, so a
verify failure still keeps the bytes; the manifest record is written only
after the whole try body succeeds. -/
def processUpload (cfg : Config) (e : FileEntry) (env : FileEnv) : FileResult :=
  if cfg.dryRun then
    { outcome := Outcome.uploaded, bytes := 0,
      manifest := manifestAppend cfg e, uploadCalls := 0 }
  else if env.uploadOk = false then
    { outcome := Outcome.errored, bytes := 0, manifest := [], uploadCalls := 1 }
  else if cfg.verify then
    match env.head2 with
    | Except.error _ =>
      { outcome := Outcome.errored, bytes := e.size, manifest := [],
        uploadCalls := 1 }
    | Except.ok remote =>
      if verifyOk e.size e.sha256 remote then
        { outcome := Outcome.uploaded, bytes := e.size,
          manifest := manifestAppend cfg e, uploadCalls := 1 }
      else
        { outcome := Outcome.errored, bytes := e.size, manifest := [],
          uploadCalls := 1 }
  else
    { outcome := Outcome.uploaded, bytes := e.size,
      manifest := manifestAppend cfg e, uploadCalls := 1 }

/-- The try body of lines 183-203 for one file: with skip-existing, a
transport error from head_object is caught as a per-file error, a
matching remote object is skipped (writing its manifest record),
otherwise control falls through to the upload path. -/
def processFile (cfg : Config) (e : FileEntry) (env : FileEnv) : FileResult :=
  if cfg.skipExisting then
    match env.head1 with
    | Except.error _ =>
      { outcome := Outcome.errored, bytes := 0, manifest := [],
        uploadCalls := 0 }
    | Except.ok remote =>
      if decideAction e.size e.sha256 remote true = Decision.skip then
        { outcome := Outcome.skipped, bytes := 0,
          manifest := manifestAppend cfg e, uploadCalls := 0 }
      else processUpload cfg e env
  else processUpload cfg e env

/-- Loop totals: the four counters and bytes_uploaded of lines 168-172,
the manifest lines written in order, the number of upload_file calls, and
whether an exception escaped the loop (aborted). -/
structure RunTotals where
  uploaded : Nat
  skipped : Nat
  errors : Nat
  bytes : Nat
  uploadCalls : Nat
  manifest : List String
  aborted : Bool
deriving DecidableEq, Repr

/-- The per-file loop of lines 176-208. A file whose pre-try lines raise
aborts the whole run on the spot (nothing later is processed). An
errored file under fail-fast breaks out of the loop after being counted.
Otherwise each file's contribution is accumulated in processing order. -/
def runFiles (cfg : Config) : List (FileEntry × FileEnv) → RunTotals
  | [] =>
    { uploaded := 0, skipped := 0, errors := 0, bytes := 0, uploadCalls := 0,
      manifest := [], aborted := false }
  | (e, env) :: rest =>
    if env.checksumRaises then
      { uploaded := 0, skipped := 0, errors := 0, bytes := 0, uploadCalls := 0,
        manifest := [], aborted := true }
    else
      let r := processFile cfg e env
      if cfg.failFast = true ∧ r.outcome = Outcome.errored then
        { uploaded := 0, skipped := 0, errors := 1, bytes := r.bytes,
          uploadCalls := r.uploadCalls, manifest := r.manifest,
          aborted := false }
      else
        let acc := runFiles cfg rest
        { uploaded := (if r.outcome = Outcome.uploaded then 1 else 0) + acc.uploaded,
          skipped := (if r.outcome = Outcome.skipped then 1 else 0) + acc.skipped,
          errors := (if r.outcome = Outcome.errored then 1 else 0) + acc.errors,
          bytes := r.bytes + acc.bytes,
          uploadCalls := r.uploadCalls + acc.uploadCalls,
          manifest := r.manifest ++ acc.manifest,
          aborted := acc.aborted }

/-- End-of-run view of main (lines 166-219): scanned is the collected
count of line 168; manifestClosed tells whether line 211 actually closed
a configured manifest handle, which happens only when the loop was left
normally (there is no try/finally around the loop); exitCode is the
return of line 219, or none when an exception escaped the loop and main
never returned. -/
structure MainResult where
  scanned : Nat
  uploaded : Nat
  skipped : Nat
  errors : Nat
  bytes : Nat
  uploadCalls : Nat
  manifest : List String
  aborted : Bool
  manifestClosed : Bool
  exitCode : Option Nat
deriving DecidableEq, Repr

/-- Assembles the observable result of one run of main over an already
collected file list paired with its environment oracle. -/
def runMain (cfg : Config) (files : List (FileEntry × FileEnv)) : MainResult :=
  let r := runFiles cfg files
  { scanned := files.length,
    uploaded := r.uploaded,
    skipped := r.skipped,
    errors := r.errors,
    bytes := r.bytes,
    uploadCalls := r.uploadCalls,
    manifest := r.manifest,
    aborted := r.aborted,
    manifestClosed := cfg.manifest && !r.aborted,
    exitCode := if r.aborted then none else some (if r.errors = 0 then 0 else 1) }

/-- The remote state that a completed upload leaves behind for its key:
present, with the local byte size as content length and the computed
fingerprint stored under the sha256 metadata key (line 182 builds exactly
this metadata map for upload_file). -/
def remoteAfterUpload (e : FileEntry) : RemoteState :=
  RemoteState.present e.size (some e.sha256)

/-- The decision phase of one file's processing, shared by dry and real
runs: a transport error from the skip check propagates, otherwise the
skip-existing decision of lines 184-191 (always upload when the flag is
off, since no probe is made). -/
def decisionOf (cfg : Config) (e : FileEntry) (env : FileEnv) :
    Except Unit Decision :=
  if cfg.skipExisting then
    match env.head1 with
    | Except.error u => Except.error u
    | Except.ok remote => Except.ok (decideAction e.size e.sha256 remote true)
  else Except.ok Decision.upload

/-- True when the transfer of lines 194-196 actually ran and returned:
not a dry run, the decision phase yielded upload, and upload_file did not
raise. These are exactly the files whose size enters bytes_uploaded. -/
def transferOccurred (cfg : Config) (e : FileEntry) (env : FileEnv) : Bool :=
  !cfg.dryRun && env.uploadOk &&
    (match decisionOf cfg e env with
     | Except.ok Decision.upload => true
     | _ => false)

/-- What a dry run records for one file, as a function of the decision
phase alone: an errored probe stays an error, a skip decision is counted
skipped, an upload decision is counted uploaded; either terminal decision
writes its manifest record, no bytes move and upload_file is never
called. -/
def dryOutcome (cfg : Config) (e : FileEntry) (env : FileEnv) : FileResult :=
  match decisionOf cfg e env with
  | Except.error _ =>
    { outcome := Outcome.errored, bytes := 0, manifest := [], uploadCalls := 0 }
  | Except.ok Decision.skip =>
    { outcome := Outcome.skipped, bytes := 0,
      manifest := manifestAppend cfg e, uploadCalls := 0 }
  | Except.ok Decision.upload =>
    { outcome := Outcome.uploaded, bytes := 0,
      manifest := manifestAppend cfg e, uploadCalls := 0 }

/-- Claim C1: the decision of lines 184-191 is Skip exactly when
skip-existing is enabled, the remote object is present, the remote
content length equals the local byte size, and the stored metadata
fingerprint equals the computed fingerprint by exact case-sensitive
string comparison; every other combination (absent object, size
mismatch, missing or different fingerprint, or the flag off) yields
Upload. -/
theorem decideAction_skip_iff (e : FileEntry) (remote : RemoteState) (se : Bool) :
    decideAction e.size e.sha256 remote se = Decision.skip ↔
      se = true ∧ remote = RemoteState.present e.size (some e.sha256) := by
  cases se with
  | false => cases remote <;> simp [decideAction]
  | true =>
    cases remote with
    | absent => simp [decideAction]
    | present rsize rsha =>
      by_cases h : rsize = e.size ∧ rsha = some e.sha256
      · simp [decideAction, h.1, h.2]
      · simp [decideAction, h]

/-- Claim C5 counterexample: the path .data/a.csv lies under a
dot-prefixed directory and is not literally equal to any member of the
include list, yet the collector's filter admits it, because the explicit
flag of line 76 is computed by glob matching (fnmatch), not by verbatim
string comparison, and the star of *.csv matches across the slash. -/
theorem hidden_verbatim_cex :
    hiddenPath ".data/a.csv" = true ∧
    (["*.csv"].contains ".data/a.csv") = false ∧
    filterIncluded ".data/a.csv" ["*.csv"] [] = true := by decide

/-- Claim C5 (amended): a relative path with a dot-prefixed segment is
excluded by the collector's filter unless it glob-matches at least one
include pattern (the explicit flag of line 76); explicit inclusion is
fnmatch glob matching, not verbatim string equality. -/
theorem hidden_needs_glob_match (rel : String) (includes excludes : List String)
    (hHidden : hiddenPath rel = true)
    (hNoMatch : explicitOf rel includes = false) :
    filterIncluded rel includes excludes = false := by
  simp [filterIncluded, should_include, hHidden, hNoMatch]

/-- Concrete instance of hidden_needs_glob_match: the hidden path .x with
no include patterns is rejected by the filter. -/
theorem hidden_needs_glob_match_witness :
    hiddenPath ".x" = true ∧ explicitOf ".x" [] = false ∧
      filterIncluded ".x" [] [] = false :=
  ⟨by decide, by decide, hidden_needs_glob_match ".x" [] [] (by decide) (by decide)⟩

/-- Claim C6: with a positive size ceiling of m mebibytes, a candidate
file that passes the path filter is collected when its size equals the
ceiling exactly, and excluded when its size exceeds the ceiling by one
byte (the exclusion at lines 79-81 is a logged skip, not an error:
collectFiles is total). -/
theorem size_ceiling_boundary (entries : List FileEntry)
    (includes excludes : List String) (m : Int) (e : FileEntry)
    (hm : 0 < m) (he : e ∈ entries)
    (hf : filterIncluded e.rel includes excludes = true) :
    (((e.size : Int) = m * 1024 * 1024) →
      e ∈ collectFiles entries includes excludes (some m)) ∧
    (((e.size : Int) = m * 1024 * 1024 + 1) →
      e ∉ collectFiles entries includes excludes (some m)) := by
  have hm0 : m ≠ 0 := by omega
  constructor
  · intro hs
    simp only [collectFiles, hm0, if_false, List.mem_filter]
    refine ⟨he, ?_⟩
    simp [hf, sizeExceeds]
    omega
  · intro hs
    simp only [collectFiles, hm0, if_false, List.mem_filter]
    intro hcontra
    have hsz : sizeExceeds (some (m * 1024 * 1024)) e.size = true := by
      simp [sizeExceeds]
      constructor
      · omega
      · omega
    rw [hsz] at hcontra
    simp at hcontra

/-- A 1048576-byte file, exactly one mebibyte. -/
def atCeiling : FileEntry :=
  { rel := "a.csv", size := 1048576, sha256 := "s1" }

/-- A 1048577-byte file, one byte over a one-mebibyte ceiling. -/
def overCeiling : FileEntry :=
  { rel := "b.csv", size := 1048577, sha256 := "s2" }

/-- Concrete instance of size_ceiling_boundary at a one-mebibyte ceiling:
a 1048576-byte file sits exactly at the ceiling. -/
theorem size_ceiling_boundary_witness :
    (0 : Int) < 1 ∧
    atCeiling ∈ [atCeiling, overCeiling] ∧
    filterIncluded atCeiling.rel [] [] = true ∧
    ((((atCeiling.size : Int) = 1 * 1024 * 1024) →
      atCeiling ∈ collectFiles [atCeiling, overCeiling] [] [] (some 1)) ∧
     (((atCeiling.size : Int) = 1 * 1024 * 1024 + 1) →
      atCeiling ∉ collectFiles [atCeiling, overCeiling] [] [] (some 1))) :=
  ⟨by decide, by decide, by decide,
    size_ceiling_boundary [atCeiling, overCeiling] [] [] 1 atCeiling
      (by decide) (by decide) (by decide)⟩

/-- Claim C10: a max_size_mb of zero disables the ceiling entirely - line
71 turns a falsy max_size_mb into no bound, so collection keeps every
file that passes the path filter, regardless of size. -/
theorem max_size_zero_disables (entries : List FileEntry)
    (includes excludes : List String) :
    collectFiles entries includes excludes (some 0) =
      entries.filter (fun e => filterIncluded e.rel includes excludes) := by
  simp [collectFiles, sizeExceeds]

/-- The manifest lines of one file are exactly one record on a terminal
outcome and nothing on an error, for the upload path. -/
theorem processUpload_manifest (cfg : Config) (e : FileEntry) (env : FileEnv) :
    (processUpload cfg e env).manifest =
      if (processUpload cfg e env).outcome = Outcome.errored then []
      else manifestAppend cfg e := by
  unfold processUpload
  by_cases hdr : cfg.dryRun = true
  · simp [hdr]
  · by_cases hup : env.uploadOk = false
    · simp [hdr, hup]
    · by_cases hv : cfg.verify = true
      · simp only [hdr, hup, hv, if_true, if_false]
        cases env.head2 with
        | error u => simp
        | ok remote =>
          by_cases hvo : verifyOk e.size e.sha256 remote = true <;> simp [hvo]
      · simp [hdr, hup, hv]

/-- The manifest lines of one file are exactly one record on a terminal
outcome (skip or counted upload) and nothing on an error. -/
theorem processFile_manifest (cfg : Config) (e : FileEntry) (env : FileEnv) :
    (processFile cfg e env).manifest =
      if (processFile cfg e env).outcome = Outcome.errored then []
      else manifestAppend cfg e := by
  unfold processFile
  by_cases hse : cfg.skipExisting = true
  · simp only [hse, if_true]
    cases env.head1 with
    | error u => simp
    | ok remote =>
      by_cases hd : decideAction e.size e.sha256 remote true = Decision.skip
      · simp [hd]
      · simp only [hd, if_false]
        exact processUpload_manifest cfg e env
  · simp only [hse, if_false]
    exact processUpload_manifest cfg e env

/-- Claim C3: when a manifest path is configured, processing one file
appends exactly one manifest line when it reaches a terminal outcome
(skip, or an upload counted at line 203) and no line when it errors,
including a post-upload verification failure. -/
theorem manifest_record_iff_terminal (cfg : Config) (e : FileEntry)
    (env : FileEnv) (hm : cfg.manifest = true) :
    (processFile cfg e env).manifest.length =
      (if (processFile cfg e env).outcome = Outcome.errored then 0 else 1) := by
  rw [processFile_manifest]
  by_cases h : (processFile cfg e env).outcome = Outcome.errored
  · simp [h]
  · simp [h, manifestAppend, hm]

/-- A second-run configuration with skip-existing on. -/
def rerunCfg : Config :=
  { pfx := "data/", skipExisting := true, dryRun := false, verify := false,
    failFast := false, manifest := true }

/-- A small collected file. -/
def rerunEntry : FileEntry := { rel := "a.csv", size := 3, sha256 := "h1" }

/-- An environment in which the remote object already carries the local
size and fingerprint, as a completed first-run upload leaves it. -/
def rerunEnv : FileEnv :=
  { checksumRaises := false,
    head1 := Except.ok (RemoteState.present 3 (some "h1")),
    uploadOk := true, head2 := Except.ok RemoteState.absent }

/-- Concrete instance of manifest_record_iff_terminal: a skipped file
with a configured manifest gets exactly one line. -/
theorem manifest_record_iff_terminal_witness :
    rerunCfg.manifest = true ∧
    (processFile rerunCfg rerunEntry rerunEnv).manifest.length =
      (if (processFile rerunCfg rerunEntry rerunEnv).outcome = Outcome.errored
       then 0 else 1) :=
  ⟨rfl, manifest_record_iff_terminal rerunCfg rerunEntry rerunEnv rfl⟩

/-- Totals of the loop when every file matches remotely: nothing is
uploaded and everything is skipped. -/
theorem runFiles_second_run (cfg : Config) (files : List (FileEntry × FileEnv))
    (hse : cfg.skipExisting = true)
    (h : ∀ pe ∈ files, pe.2.checksumRaises = false ∧
      pe.2.head1 = Except.ok (remoteAfterUpload pe.1)) :
    (runFiles cfg files).uploaded = 0 ∧
      (runFiles cfg files).skipped = files.length := by
  induction files with
  | nil => exact ⟨rfl, rfl⟩
  | cons pe rest ih =>
    obtain ⟨e, env⟩ := pe
    obtain ⟨hcr, hh⟩ := h (e, env) (List.mem_cons_self _ _)
    have hcr2 : env.checksumRaises = false := hcr
    have hh2 : env.head1 = Except.ok (remoteAfterUpload e) := hh
    have hskip : processFile cfg e env =
        { outcome := Outcome.skipped, bytes := 0,
          manifest := manifestAppend cfg e, uploadCalls := 0 } := by
      unfold processFile
      simp [hse, hh2, remoteAfterUpload, decideAction]
    have ih2 := ih (fun q hq => h q (List.mem_cons_of_mem _ hq))
    simp [runFiles, hcr2, hskip, ih2.1, ih2.2, Nat.add_comm]

/-- Claim C2: with skip-existing enabled, running again over an unchanged
tree whose every file the first run uploaded with its fingerprint
metadata (so each head probe now returns the local size and fingerprint)
uploads nothing and skips every scanned file. -/
theorem second_run_idempotent (cfg : Config) (files : List (FileEntry × FileEnv))
    (hse : cfg.skipExisting = true)
    (h : ∀ pe ∈ files, pe.2.checksumRaises = false ∧
      pe.2.head1 = Except.ok (remoteAfterUpload pe.1)) :
    (runMain cfg files).uploaded = 0 ∧
      (runMain cfg files).skipped = (runMain cfg files).scanned := by
  have hr := runFiles_second_run cfg files hse h
  exact ⟨hr.1, by simpa [runMain] using hr.2⟩

/-- Concrete instance of second_run_idempotent on a one-file tree. -/
theorem second_run_idempotent_witness :
    rerunCfg.skipExisting = true ∧
    (∀ pe ∈ [(rerunEntry, rerunEnv)], pe.2.checksumRaises = false ∧
      pe.2.head1 = Except.ok (remoteAfterUpload pe.1)) ∧
    ((runMain rerunCfg [(rerunEntry, rerunEnv)]).uploaded = 0 ∧
      (runMain rerunCfg [(rerunEntry, rerunEnv)]).skipped =
        (runMain rerunCfg [(rerunEntry, rerunEnv)]).scanned) :=
  ⟨rfl,
   by
     intro pe hpe
     rw [List.mem_singleton] at hpe
     subst hpe
     exact ⟨rfl, rfl⟩,
   second_run_idempotent rerunCfg [(rerunEntry, rerunEnv)] rfl
     (by
       intro pe hpe
       rw [List.mem_singleton] at hpe
       subst hpe
       exact ⟨rfl, rfl⟩)⟩

/-- Bytes contributed by the upload path of one file: the file size
exactly when the transfer itself was performed and returned, whatever
happens to verification afterwards. -/
theorem processUpload_bytes (cfg : Config) (e : FileEntry) (env : FileEnv) :
    (processUpload cfg e env).bytes =
      if (!cfg.dryRun && env.uploadOk) then e.size else 0 := by
  unfold processUpload
  by_cases hdr : cfg.dryRun = true
  · simp [hdr]
  · have hdr2 : cfg.dryRun = false := by
      cases hd : cfg.dryRun
      · rfl
      · exact absurd hd hdr
    by_cases hup : env.uploadOk = false
    · simp [hdr2, hup]
    · have hup2 : env.uploadOk = true := by
        cases hu : env.uploadOk
        · exact absurd hu hup
        · rfl
      by_cases hv : cfg.verify = true
      · simp only [hdr2, hup, hv, if_true, if_false, Bool.false_eq_true,
          Bool.not_false, Bool.true_and]
        cases env.head2 with
        | error u => simp [hup2]
        | ok remote =>
          by_cases hvo : verifyOk e.size e.sha256 remote = true <;>
            simp [hvo, hup2]
      · simp [hdr2, hup, hup2, hv]

/-- Bytes contributed by one file's whole processing: the file size
exactly when transferOccurred holds (the decision was upload, the run was
not dry, and upload_file returned), zero otherwise - in particular a file
errored by a later verification failure still contributes its size. -/
theorem processFile_bytes (cfg : Config) (e : FileEntry) (env : FileEnv) :
    (processFile cfg e env).bytes =
      if transferOccurred cfg e env then e.size else 0 := by
  unfold processFile transferOccurred decisionOf
  by_cases hse : cfg.skipExisting = true
  · simp only [hse, if_true]
    cases env.head1 with
    | error u => simp
    | ok remote =>
      by_cases hd : decideAction e.size e.sha256 remote true = Decision.skip
      · simp [hd]
      · have hup : decideAction e.size e.sha256 remote true = Decision.upload := by
          cases hda : decideAction e.size e.sha256 remote true
          · exact absurd hda hd
          · rfl
        simp [hd, hup, processUpload_bytes]
  · simp [hse, processUpload_bytes]

/-- A run with verification on and every other toggle off. -/
def verifyCfg : Config :=
  { pfx := "", skipExisting := false, dryRun := false, verify := true,
    failFast := false, manifest := false }

/-- A five-byte file. -/
def fiveByteEntry : FileEntry := { rel := "a.csv", size := 5, sha256 := "aa" }

/-- An environment in which the upload call succeeds but the verify
re-probe finds no object, so line 200 raises after line 196 has already
added the bytes. -/
def verifyFailEnv : FileEnv :=
  { checksumRaises := false, head1 := Except.ok RemoteState.absent,
    uploadOk := true, head2 := Except.ok RemoteState.absent }

/-- Claim C4 counterexample: in a run whose only file is uploaded and
then fails verification, the file is counted errored (uploaded = 0) yet
bytes_uploaded ends at 5, not at the sum of sizes of files counted as
uploaded (which is 0): line 196 adds the bytes before the verify check
of lines 197-200 can raise. -/
theorem bytes_uploaded_only_cex :
    (runMain verifyCfg [(fiveByteEntry, verifyFailEnv)]).bytes ≠
      ([(fiveByteEntry, verifyFailEnv)].map (fun pe =>
        if (processFile verifyCfg pe.1 pe.2).outcome = Outcome.uploaded
        then pe.1.size else 0)).sum ∧
    (runMain verifyCfg [(fiveByteEntry, verifyFailEnv)]).uploaded = 0 ∧
    (runMain verifyCfg [(fiveByteEntry, verifyFailEnv)]).errors = 1 ∧
    (runMain verifyCfg [(fiveByteEntry, verifyFailEnv)]).bytes = 5 := by
  decide

/-- The files the loop of lines 176-208 actually reaches: everything up
to and including a fail-fast break file, and nothing from a file whose
pre-try lines raise (aborting the loop) onward. -/
def processedFiles (cfg : Config) : List (FileEntry × FileEnv) →
    List (FileEntry × FileEnv)
  | [] => []
  | (e, env) :: rest =>
    if env.checksumRaises then []
    else if cfg.failFast = true ∧ (processFile cfg e env).outcome = Outcome.errored
    then [(e, env)]
    else (e, env) :: processedFiles cfg rest

/-- Claim C4 (amended): at the end of every run - runs terminated early
by the fail-fast break or by an escaping exception included -
bytes_uploaded equals the sum of the sizes of exactly those reached files
whose transfer call was performed and returned (non-dry run, decision
upload, upload_file succeeded); this includes files later counted
errored by a verification failure, while skipped files, dry-run files,
files erroring before or during the transfer, and files the loop never
reaches contribute zero. -/
theorem bytes_counts_successful_transfers (cfg : Config)
    (files : List (FileEntry × FileEnv)) :
    (runMain cfg files).bytes =
      ((processedFiles cfg files).map (fun pe =>
        if transferOccurred cfg pe.1 pe.2 then pe.1.size else 0)).sum := by
  show (runFiles cfg files).bytes = _
  induction files with
  | nil => rfl
  | cons pe rest ih =>
    obtain ⟨e, env⟩ := pe
    by_cases hcr : env.checksumRaises = true
    · simp [runFiles, processedFiles, hcr]
    · by_cases hbr : cfg.failFast = true ∧
        (processFile cfg e env).outcome = Outcome.errored
      · simp [runFiles, processedFiles, hcr, hbr, processFile_bytes]
      · simp [runFiles, processedFiles, hcr, hbr, processFile_bytes, ih]

/-- A dry run never calls upload_file for one file. -/
theorem dryOutcome_calls (cfg : Config) (e : FileEntry) (env : FileEnv) :
    (dryOutcome cfg e env).uploadCalls = 0 := by
  unfold dryOutcome
  rcases hd : decisionOf cfg e env with u | d
  · rfl
  · cases d <;> rfl

/-- With dry-run set, one file's processing is exactly the decision-phase
outcome: same skip/upload classification, its manifest record on either
terminal decision, no bytes and no upload_file call. -/
theorem processFile_dry (cfg : Config) (e : FileEntry) (env : FileEnv)
    (hdry : cfg.dryRun = true) :
    processFile cfg e env = dryOutcome cfg e env := by
  unfold processFile dryOutcome decisionOf processUpload
  by_cases hse : cfg.skipExisting = true
  · simp only [hse, if_true]
    cases env.head1 with
    | error u => rfl
    | ok remote =>
      by_cases hd : decideAction e.size e.sha256 remote true = Decision.skip
      · simp [hd]
      · have hup : decideAction e.size e.sha256 remote true = Decision.upload := by
          cases hda : decideAction e.size e.sha256 remote true
          · exact absurd hda hd
          · rfl
        simp [hd, hup, hdry]
  · simp [hse, hdry]

/-- A dry run makes no upload_file call across the whole loop. -/
theorem runFiles_dry_calls (cfg : Config) (files : List (FileEntry × FileEnv))
    (hdry : cfg.dryRun = true) :
    (runFiles cfg files).uploadCalls = 0 := by
  induction files with
  | nil => rfl
  | cons pe rest ih =>
    obtain ⟨e, env⟩ := pe
    have hr : (processFile cfg e env).uploadCalls = 0 := by
      rw [processFile_dry cfg e env hdry]
      exact dryOutcome_calls cfg e env
    by_cases hcr : env.checksumRaises = true
    · simp [runFiles, hcr]
    · simp only [runFiles, hcr, if_false, Bool.false_eq_true]
      split
      · simpa using hr
      · simp [hr, ih]

/-- Claim C7: with dry-run enabled the upload operation is never invoked
across the run, and every file's recorded result (skip versus upload
classification, manifest record, counters) is exactly the decision-phase
outcome that a non-dry run would compute for the same remote state. -/
theorem dry_run_no_uploads (cfg : Config) (files : List (FileEntry × FileEnv))
    (hdry : cfg.dryRun = true) :
    (runMain cfg files).uploadCalls = 0 ∧
      ∀ pe ∈ files, processFile cfg pe.1 pe.2 = dryOutcome cfg pe.1 pe.2 := by
  constructor
  · show (runFiles cfg files).uploadCalls = 0
    exact runFiles_dry_calls cfg files hdry
  · intro pe _
    exact processFile_dry cfg pe.1 pe.2 hdry

/-- A dry-run configuration with skip-existing and a manifest. -/
def dryCfg : Config :=
  { pfx := "", skipExisting := true, dryRun := true, verify := false,
    failFast := false, manifest := true }

/-- Concrete instance of dry_run_no_uploads on a one-file run. -/
theorem dry_run_no_uploads_witness :
    dryCfg.dryRun = true ∧
    ((runMain dryCfg [(rerunEntry, rerunEnv)]).uploadCalls = 0 ∧
      ∀ pe ∈ [(rerunEntry, rerunEnv)],
        processFile dryCfg pe.1 pe.2 = dryOutcome dryCfg pe.1 pe.2) :=
  ⟨rfl, dry_run_no_uploads dryCfg [(rerunEntry, rerunEnv)] rfl⟩

/-- Claim C8: whenever the loop runs to completion (no exception escaped
it), main returns via line 219, and that exit status is non-zero exactly
when the errored counter is positive; with zero errors - a clean dry run
included - the status is zero. -/
theorem exit_nonzero_iff_errors (cfg : Config)
    (files : List (FileEntry × FileEnv))
    (h : (runMain cfg files).aborted = false) :
    (runMain cfg files).exitCode =
      some (if (runMain cfg files).errors = 0 then 0 else 1) ∧
    ((runMain cfg files).exitCode ≠ some 0 ↔ 0 < (runMain cfg files).errors) := by
  have hab : (runFiles cfg files).aborted = false := h
  constructor
  · simp [runMain, hab]
  · simp only [runMain, hab, Bool.false_eq_true, if_false]
    by_cases he : (runFiles cfg files).errors = 0
    · simp [he]
    · simp only [he, if_false]
      constructor
      · intro _
        omega
      · intro _ hc
        simp at hc

/-- A plain dry-run configuration. -/
def plainDryCfg : Config :=
  { pfx := "", skipExisting := false, dryRun := true, verify := false,
    failFast := false, manifest := false }

/-- Concrete instance of exit_nonzero_iff_errors: an error-free dry run
exits zero. -/
theorem exit_nonzero_iff_errors_witness :
    (runMain plainDryCfg []).aborted = false ∧
    ((runMain plainDryCfg []).exitCode =
        some (if (runMain plainDryCfg []).errors = 0 then 0 else 1) ∧
      ((runMain plainDryCfg []).exitCode ≠ some 0 ↔
        0 < (runMain plainDryCfg []).errors)) :=
  ⟨rfl, exit_nonzero_iff_errors plainDryCfg [] rfl⟩

/-- The loop never aborts when no file's pre-try lines raise. -/
theorem runFiles_no_abort (cfg : Config) (files : List (FileEntry × FileEnv))
    (h : ∀ pe ∈ files, pe.2.checksumRaises = false) :
    (runFiles cfg files).aborted = false := by
  induction files with
  | nil => rfl
  | cons pe rest ih =>
    obtain ⟨e, env⟩ := pe
    have hcr : env.checksumRaises = false := h (e, env) (List.mem_cons_self _ _)
    have ih2 := ih (fun q hq => h q (List.mem_cons_of_mem _ hq))
    simp only [runFiles, hcr, Bool.false_eq_true, if_false]
    split
    · rfl
    · simpa using ih2

/-- A configuration with a manifest and everything else off. -/
def manifestOnlyCfg : Config :=
  { pfx := "", skipExisting := false, dryRun := false, verify := false,
    failFast := false, manifest := true }

/-- An environment whose pre-try lines raise: the file disappears between
collection and processing, so stat or compute_sha256 (lines 177-182,
outside the try block) raises OSError. -/
def checksumRaiseEnv : FileEnv :=
  { checksumRaises := true, head1 := Except.ok RemoteState.absent,
    uploadOk := true, head2 := Except.ok RemoteState.absent }

/-- Claim C9 counterexample: with a manifest configured, a run whose only
file raises at lines 177-182 lets the exception escape the per-file loop
(those lines run before the try of line 183, and no try/finally or with
block guards the handle opened at line 174), so line 211 is never reached
and the manifest handle is not closed. -/
theorem manifest_close_cex :
    manifestOnlyCfg.manifest = true ∧
    (runMain manifestOnlyCfg [(fiveByteEntry, checksumRaiseEnv)]).aborted = true ∧
    (runMain manifestOnlyCfg
      [(fiveByteEntry, checksumRaiseEnv)]).manifestClosed = false := by
  decide

/-- Claim C9 (amended): when a manifest path is configured, the handle
opened at line 174 is closed on every exit path that leaves the per-file
loop normally - loop exhaustion and early termination via the fail-fast
break included - but not when an exception escapes the loop; in every run
whose files all get past the pre-try lines, the handle is closed. -/
theorem manifest_closed_when_loop_completes (cfg : Config)
    (files : List (FileEntry × FileEnv)) (hm : cfg.manifest = true)
    (h : ∀ pe ∈ files, pe.2.checksumRaises = false) :
    (runMain cfg files).manifestClosed = true := by
  simp [runMain, hm, runFiles_no_abort cfg files h]

/-- Concrete instance of manifest_closed_when_loop_completes: a one-file
run whose file processes normally closes the manifest. -/
theorem manifest_closed_when_loop_completes_witness :
    manifestOnlyCfg.manifest = true ∧
    (∀ pe ∈ [(fiveByteEntry, verifyFailEnv)], pe.2.checksumRaises = false) ∧
    (runMain manifestOnlyCfg
      [(fiveByteEntry, verifyFailEnv)]).manifestClosed = true :=
  ⟨rfl,
   by
     intro pe hpe
     rw [List.mem_singleton] at hpe
     subst hpe
     rfl,
   manifest_closed_when_loop_completes manifestOnlyCfg
     [(fiveByteEntry, verifyFailEnv)] rfl
     (by
       intro pe hpe
       rw [List.mem_singleton] at hpe
       subst hpe
       rfl)⟩

end S3Sync
